import Mathlib

/-!
A shallow embedding of `src/task_manager.py`: an in-memory task list
manager with add, list, mark-complete, delete, filter-by-priority and
search-by-keyword operations, together with proofs of its specified
properties.

Python specifics captured by the embedding:
* `Task.__init__` sets `self.id = id(self)`. The value of `id(self)` is
  the address of the freshly allocated object, chosen by the runtime,
  so `Task.init` takes it as the explicit argument `addr`. CPython only
  guarantees that the addresses of *simultaneously live* objects are
  distinct; once an object is collected its address may be handed to a
  later allocation.
* `datetime.now()` is likewise a runtime input, passed as `created_at`.
* `add_task` raises `ValueError` on a bad priority; this is embedded as
  `Except.error`. The raise happens before any mutation, so on the
  error branch no updated store exists.
* `mark_complete`/`delete_task` compare `id(task) == task_id`. CPython
  objects never move, so for a live task `id(task)` is exactly the
  `task.id` stored at construction; the embedding scans on the `id`
  field.
-/

set_option autoImplicit false

deriving instance DecidableEq for Except

namespace TaskManagerPy

/-- Python `s.lower()`: lowercase every character. (Lean's own
`String.toLower` is this same character map, but implemented over byte
positions, which the kernel cannot evaluate; the embedding uses the
direct character map so that concrete instances reduce.) -/
def strToLower (s : String) : String :=
  ⟨s.data.map Char.toLower⟩

/-- One task record, mirroring `class Task`. -/
structure Task where
  id : Nat
  title : String
  description : String
  priority : String
  completed : Bool
  created_at : Nat
  deriving Repr, DecidableEq

/-- `Task.__init__`: stores the title and description verbatim,
normalizes the priority to lowercase, starts out not completed.
`addr` is the runtime-chosen value of `id(self)` and `created_at`
the clock reading; the constructor performs no validation. -/
def Task.init (addr created_at : Nat) (title description priority : String) : Task :=
  { id := addr
    title := title
    description := description
    priority := strToLower priority
    completed := false
    created_at := created_at }

/-- `Task.mark_complete`: sets the completed flag, unconditionally. -/
def Task.mark_complete (t : Task) : Task :=
  { t with completed := true }

/-- The store: an ordered list of tasks, mirroring `TaskManager.tasks`. -/
structure TaskManager where
  tasks : List Task
  deriving Repr, DecidableEq

/-- `TaskManager.__init__`: the empty store. -/
def TaskManager.empty : TaskManager := ⟨[]⟩

/-- The valid priority levels checked by `add_task`. -/
def validPriorities : List String := ["high", "medium", "low"]

/-- `TaskManager.add_task`: rejects a priority whose lowercase form is
not in `validPriorities` (the `ValueError` raise), otherwise constructs
the task, appends it, and returns it with the updated store. -/
def TaskManager.add_task (m : TaskManager) (addr created_at : Nat)
    (title description priority : String) : Except String (Task × TaskManager) :=
  if (validPriorities.contains (strToLower priority)) = false then
    Except.error "Priority must be high, medium, or low"
  else
    let task := Task.init addr created_at title description priority
    Except.ok (task, ⟨m.tasks ++ [task]⟩)

/-- The store as seen after a call to `add_task`: on the error branch
the raise aborts before any mutation, so the store is the old one. -/
def TaskManager.add_task_state (m : TaskManager) (addr created_at : Nat)
    (title description priority : String) : TaskManager :=
  match m.add_task addr created_at title description priority with
  | Except.error _ => m
  | Except.ok r => r.2

/-- `TaskManager.list_all_tasks`: returns the task list. -/
def TaskManager.list_all_tasks (m : TaskManager) : List Task := m.tasks

/-- The loop of `TaskManager.mark_complete`: scan for the first task
whose id matches, mark it and stop; report whether one was found. -/
def markFirst (task_id : Nat) : List Task → Bool × List Task
  | [] => (false, [])
  | t :: ts =>
    if t.id = task_id then
      (true, t.mark_complete :: ts)
    else
      let r := markFirst task_id ts
      (r.1, t :: r.2)

/-- `TaskManager.mark_complete`: marks the first task with the given id
complete and returns true; returns false if no task matches. -/
def TaskManager.mark_complete (m : TaskManager) (task_id : Nat) : Bool × TaskManager :=
  let r := markFirst task_id m.tasks
  (r.1, ⟨r.2⟩)

/-- The loop of `TaskManager.delete_task`: remove the first task whose
id matches (`self.tasks.pop(i)`); report whether one was found. -/
def removeFirst (task_id : Nat) : List Task → Bool × List Task
  | [] => (false, [])
  | t :: ts =>
    if t.id = task_id then
      (true, ts)
    else
      let r := removeFirst task_id ts
      (r.1, t :: r.2)

/-- `TaskManager.delete_task`: removes the first task with the given id
and returns true; returns false if no task matches. -/
def TaskManager.delete_task (m : TaskManager) (task_id : Nat) : Bool × TaskManager :=
  let r := removeFirst task_id m.tasks
  (r.1, ⟨r.2⟩)

/-- `TaskManager.filter_by_priority`: the list comprehension
`[t for t in self.tasks if t.priority == priority.lower()]`. -/
def TaskManager.filter_by_priority (m : TaskManager) (priority : String) : List Task :=
  m.tasks.filter (fun t => t.priority == strToLower priority)

/-- Python substring containment `pat in s`, on the character lists:
`pat` occurs in `s` iff it is a prefix of `s` or occurs in its tail. -/
def subList (pat : List Char) : List Char → Bool
  | [] => pat.isEmpty
  | c :: s => pat.isPrefixOf (c :: s) || subList pat s

/-- Python `pat in s` on strings. -/
def strContainsSub (s pat : String) : Bool :=
  subList pat.data s.data

/-- `TaskManager.search_by_keyword`: keep the tasks whose lowercased
title or lowercased description contains the lowercased keyword. -/
def TaskManager.search_by_keyword (m : TaskManager) (keyword : String) : List Task :=
  let keyword_lower := strToLower keyword
  m.tasks.filter (fun t =>
    strContainsSub (strToLower t.title) keyword_lower ||
    strContainsSub (strToLower t.description) keyword_lower)

/-- The four tasks created by the demonstration `main`, with distinct
runtime-supplied addresses and clock readings. -/
def demoTasks : List Task :=
  [Task.init 11 0 "Complete project" "Finish the Python project" "high",
   Task.init 12 1 "Review code" "Review pull requests" "medium",
   Task.init 13 2 "Update docs" "Update documentation" "low",
   Task.init 14 3 "Bug fix" "Fix critical bug in payment system" "high"]

/-- The demonstration store holding `demoTasks`. -/
def demoManager : TaskManager := ⟨demoTasks⟩

example : (strToLower "HiGh") = "high" := by decide

example :
    TaskManager.empty.add_task 7 0 "a" "b" "HIGH" =
      Except.ok (Task.init 7 0 "a" "b" "HIGH", ⟨[Task.init 7 0 "a" "b" "HIGH"]⟩) := by
  decide

example : (Task.init 7 0 "a" "b" "HIGH").priority = "high" := by decide

example : strContainsSub "Payment System" "ment" = true := by decide

example : strContainsSub "Payment System" "xyz" = false := by decide

/-! Helper lemmas about the scanning loops. -/

theorem Task.mark_complete_id (t : Task) : t.mark_complete.id = t.id := rfl

theorem Task.mark_complete_completed (t : Task) : t.mark_complete.completed = true := rfl

theorem Task.mark_complete_idem (t : Task) :
    t.mark_complete.mark_complete = t.mark_complete := rfl

theorem markFirst_not_found (tid : Nat) (ts : List Task)
    (h : ∀ t ∈ ts, t.id ≠ tid) : markFirst tid ts = (false, ts) := by
  induction ts with
  | nil => rfl
  | cons t ts ih =>
    have ht : t.id ≠ tid := h t (List.mem_cons_self t ts)
    simp [markFirst, ht, ih (fun u hu => h u (List.mem_cons_of_mem t hu))]

theorem removeFirst_not_found (tid : Nat) (ts : List Task)
    (h : ∀ t ∈ ts, t.id ≠ tid) : removeFirst tid ts = (false, ts) := by
  induction ts with
  | nil => rfl
  | cons t ts ih =>
    have ht : t.id ≠ tid := h t (List.mem_cons_self t ts)
    simp [removeFirst, ht, ih (fun u hu => h u (List.mem_cons_of_mem t hu))]

theorem markFirst_at (tid : Nat) (l1 l2 : List Task) (t : Task)
    (h1 : ∀ u ∈ l1, u.id ≠ tid) (ht : t.id = tid) :
    markFirst tid (l1 ++ t :: l2) = (true, l1 ++ t.mark_complete :: l2) := by
  induction l1 with
  | nil => simp [markFirst, ht]
  | cons u l1 ih =>
    have hu : u.id ≠ tid := h1 u (List.mem_cons_self u l1)
    simp [markFirst, hu, ih (fun v hv => h1 v (List.mem_cons_of_mem u hv))]

theorem removeFirst_at (tid : Nat) (l1 l2 : List Task) (t : Task)
    (h1 : ∀ u ∈ l1, u.id ≠ tid) (ht : t.id = tid) :
    removeFirst tid (l1 ++ t :: l2) = (true, l1 ++ l2) := by
  induction l1 with
  | nil => simp [removeFirst, ht]
  | cons u l1 ih =>
    have hu : u.id ≠ tid := h1 u (List.mem_cons_self u l1)
    simp [removeFirst, hu, ih (fun v hv => h1 v (List.mem_cons_of_mem u hv))]

/-- Any list holding a task with the given id splits at the FIRST such
task: everything before it misses the id. -/
theorem exists_first_match (tid : Nat) (ts : List Task)
    (h : ∃ t ∈ ts, t.id = tid) :
    ∃ l1 t l2, ts = l1 ++ t :: l2 ∧ (∀ u ∈ l1, u.id ≠ tid) ∧ t.id = tid := by
  induction ts with
  | nil => simp at h
  | cons u ts ih =>
    by_cases hu : u.id = tid
    · exact ⟨[], u, ts, rfl, by simp, hu⟩
    · obtain ⟨t, ht, htid⟩ := h
      rcases List.mem_cons.mp ht with h1 | h2
      · exact absurd (h1 ▸ htid) hu
      · obtain ⟨l1, t0, l2, heq, hl1, ht0⟩ := ih ⟨t, h2, htid⟩
        refine ⟨u :: l1, t0, l2, by rw [heq]; rfl, ?_, ht0⟩
        intro v hv
        rcases List.mem_cons.mp hv with rfl | hv2
        · exact hu
        · exact hl1 v hv2

theorem subList_nil (s : List Char) : subList [] s = true := by
  cases s <;> simp [subList, List.isPrefixOf]

/-! The claimed properties. -/

/-- C2: for every priority string whose lowercasing is not one of high,
medium, low, add_task fails with the invalid-priority error, and the
store after the call is the old store: nothing created or appended, the
size unchanged. -/
theorem add_task_invalid_priority (m : TaskManager) (addr ca : Nat)
    (ti d p : String) (h : strToLower p ∉ validPriorities) :
    m.add_task addr ca ti d p = Except.error "Priority must be high, medium, or low" ∧
    m.add_task_state addr ca ti d p = m ∧
    (m.add_task_state addr ca ti d p).tasks.length = m.tasks.length := by
  have hc : validPriorities.contains (strToLower p) = false := by
    simpa [List.contains, List.elem_iff] using h
  refine ⟨?_, ?_, ?_⟩ <;>
    simp [TaskManager.add_task, TaskManager.add_task_state, hc, h]

theorem add_task_invalid_priority_witness :
    demoManager.add_task 20 4 "t" "d" "Urgent" =
      Except.error "Priority must be high, medium, or low" :=
  (add_task_invalid_priority demoManager 20 4 "t" "d" "Urgent" (by decide)).1

/-- C3: for every priority string whose lowercasing is one of high,
medium, low, in any casing, add_task succeeds, the stored (appended and
returned) task carries the lowercased priority. -/
theorem add_task_valid_priority (m : TaskManager) (addr ca : Nat)
    (ti d p : String) (h : strToLower p ∈ validPriorities) :
    ∃ t m2, m.add_task addr ca ti d p = Except.ok (t, m2) ∧
      t.priority = strToLower p ∧ m2.tasks = m.tasks ++ [t] := by
  have hc : validPriorities.contains (strToLower p) = true := by
    simpa [List.contains, List.elem_iff] using h
  exact ⟨Task.init addr ca ti d p, ⟨m.tasks ++ [Task.init addr ca ti d p]⟩,
    by simp [TaskManager.add_task, hc, h], rfl, rfl⟩

theorem add_task_valid_priority_witness :
    ∃ t m2, demoManager.add_task 20 4 "t" "d" "MeDiUm" = Except.ok (t, m2) ∧
      t.priority = strToLower "MeDiUm" ∧ m2.tasks = demoManager.tasks ++ [t] :=
  add_task_valid_priority demoManager 20 4 "t" "d" "MeDiUm" (by decide)

/-- C4: after every successful add_task, list_all_tasks is the old
sequence with the returned task appended: length grows by exactly one,
the new task is last, all previously held tasks keep their order. -/
theorem add_task_appends (m : TaskManager) (addr ca : Nat) (ti d p : String)
    (t : Task) (m2 : TaskManager)
    (h : m.add_task addr ca ti d p = Except.ok (t, m2)) :
    m2.list_all_tasks = m.list_all_tasks ++ [t] ∧
    m2.list_all_tasks.length = m.list_all_tasks.length + 1 ∧
    m2.list_all_tasks.getLast? = some t := by
  unfold TaskManager.add_task at h
  split at h
  · simp at h
  · simp only [Except.ok.injEq, Prod.mk.injEq] at h
    obtain ⟨rfl, rfl⟩ := h
    refine ⟨rfl, by simp [TaskManager.list_all_tasks], ?_⟩
    simp [TaskManager.list_all_tasks]

theorem add_task_appends_witness :
    (⟨demoTasks ++ [Task.init 20 4 "t" "d" "high"]⟩ : TaskManager).list_all_tasks =
      demoManager.list_all_tasks ++ [Task.init 20 4 "t" "d" "high"] :=
  (add_task_appends demoManager 20 4 "t" "d" "high" (Task.init 20 4 "t" "d" "high")
    ⟨demoTasks ++ [Task.init 20 4 "t" "d" "high"]⟩ (by decide)).1

/-- C5: mark_complete on the id of a held task returns true and marks
the first task with that id (all other tasks untouched, so a completed
flag never reverts); a second call returns true again and leaves the
store exactly as after the first (idempotent). -/
theorem mark_complete_found (m : TaskManager) (tid : Nat)
    (h : ∃ t ∈ m.tasks, t.id = tid) :
    (m.mark_complete tid).1 = true ∧
    ((m.mark_complete tid).2.mark_complete tid).1 = true ∧
    ((m.mark_complete tid).2.mark_complete tid).2 = (m.mark_complete tid).2 ∧
    ∃ l1 t l2, m.tasks = l1 ++ t :: l2 ∧ (∀ u ∈ l1, u.id ≠ tid) ∧ t.id = tid ∧
      ((m.mark_complete tid).2).tasks = l1 ++ t.mark_complete :: l2 ∧
      t.mark_complete.completed = true := by
  obtain ⟨l1, t, l2, heq, hl1, ht⟩ := exists_first_match tid m.tasks h
  have h1 : markFirst tid m.tasks = (true, l1 ++ t.mark_complete :: l2) := by
    rw [heq]; exact markFirst_at tid l1 l2 t hl1 ht
  have h2 : markFirst tid (l1 ++ t.mark_complete :: l2) =
      (true, l1 ++ t.mark_complete :: l2) := by
    have h3 := markFirst_at tid l1 l2 t.mark_complete hl1
      (by rw [Task.mark_complete_id]; exact ht)
    rwa [Task.mark_complete_idem] at h3
  refine ⟨?_, ?_, ?_, l1, t, l2, heq, hl1, ht, ?_, rfl⟩ <;>
    simp [TaskManager.mark_complete, h1, h2]

theorem mark_complete_found_witness :
    (demoManager.mark_complete 11).1 = true ∧
    ((demoManager.mark_complete 11).2.mark_complete 11).2 =
      (demoManager.mark_complete 11).2 := by
  have h := mark_complete_found demoManager 11 (by decide)
  exact ⟨h.1, h.2.2.1⟩

/-- C6: for an id matching no held task, mark_complete and delete_task
each return false and leave the store exactly as it was. -/
theorem not_found_no_change (m : TaskManager) (tid : Nat)
    (h : ∀ t ∈ m.tasks, t.id ≠ tid) :
    m.mark_complete tid = (false, m) ∧ m.delete_task tid = (false, m) := by
  constructor
  · simp [TaskManager.mark_complete, markFirst_not_found tid m.tasks h]
  · simp [TaskManager.delete_task, removeFirst_not_found tid m.tasks h]

theorem not_found_no_change_witness :
    demoManager.mark_complete 99 = (false, demoManager) ∧
    demoManager.delete_task 99 = (false, demoManager) :=
  not_found_no_change demoManager 99 (by decide)

/-- C7: delete_task on the id of a held task returns true and removes
exactly the first task with that id: the store shrinks by one and is
the concatenation of the parts before and after the removed task, so
all remaining tasks keep their relative order. -/
theorem delete_task_found (m : TaskManager) (tid : Nat)
    (h : ∃ t ∈ m.tasks, t.id = tid) :
    (m.delete_task tid).1 = true ∧
    ((m.delete_task tid).2).tasks.length + 1 = m.tasks.length ∧
    ∃ l1 t l2, m.tasks = l1 ++ t :: l2 ∧ (∀ u ∈ l1, u.id ≠ tid) ∧ t.id = tid ∧
      ((m.delete_task tid).2).tasks = l1 ++ l2 := by
  obtain ⟨l1, t, l2, heq, hl1, ht⟩ := exists_first_match tid m.tasks h
  have h1 : removeFirst tid m.tasks = (true, l1 ++ l2) := by
    rw [heq]; exact removeFirst_at tid l1 l2 t hl1 ht
  refine ⟨by simp [TaskManager.delete_task, h1], ?_,
    l1, t, l2, heq, hl1, ht, by simp [TaskManager.delete_task, h1]⟩
  have hlen : (l1 ++ l2).length + 1 = m.tasks.length := by
    rw [heq]; simp [List.length_append]; omega
  simpa [TaskManager.delete_task, h1] using hlen

theorem delete_task_found_witness :
    (demoManager.delete_task 12).1 = true ∧
    ((demoManager.delete_task 12).2).tasks.length + 1 = demoManager.tasks.length := by
  have h := delete_task_found demoManager 12 (by decide)
  exact ⟨h.1, h.2.1⟩

/-- C8: filter_by_priority returns a sublist of the store (original
insertion order), holding exactly the tasks whose stored priority
equals the lowercased input; nothing is validated, so on a store whose
tasks all carry valid priorities an unrecognized priority yields the
empty list. The operation is a pure function of the store. -/
theorem filter_by_priority_spec (m : TaskManager) (p : String) :
    List.Sublist (m.filter_by_priority p) m.tasks ∧
    (∀ t, t ∈ m.filter_by_priority p ↔ t ∈ m.tasks ∧ t.priority = strToLower p) ∧
    ((∀ t ∈ m.tasks, t.priority ∈ validPriorities) →
      strToLower p ∉ validPriorities → m.filter_by_priority p = []) := by
  refine ⟨List.filter_sublist m.tasks, ?_, ?_⟩
  · intro t
    simp [TaskManager.filter_by_priority, List.mem_filter]
  · intro hall hp
    apply List.filter_eq_nil_iff.mpr
    intro t htm
    simp only [beq_iff_eq]
    intro hpe
    exact hp (hpe ▸ hall t htm)

theorem filter_by_priority_spec_witness :
    demoManager.filter_by_priority "Urgent" = [] :=
  (filter_by_priority_spec demoManager "Urgent").2.2 (by decide) (by decide)

/-- C9: search_by_keyword returns a sublist of the store (original
insertion order), holding exactly the tasks whose lowercased title or
lowercased description contains the lowercased keyword as a substring;
the empty keyword returns the whole store. The operation is a pure
function of the store. -/
theorem search_by_keyword_spec (m : TaskManager) (k : String) :
    List.Sublist (m.search_by_keyword k) m.tasks ∧
    (∀ t, t ∈ m.search_by_keyword k ↔ t ∈ m.tasks ∧
      (strContainsSub (strToLower t.title) (strToLower k) = true ∨
       strContainsSub (strToLower t.description) (strToLower k) = true)) ∧
    m.search_by_keyword "" = m.tasks := by
  refine ⟨List.filter_sublist m.tasks, ?_, ?_⟩
  · intro t
    simp [TaskManager.search_by_keyword, List.mem_filter, Bool.or_eq_true]
  · apply List.filter_eq_self.mpr
    intro t htm
    have he : strToLower "" = "" := rfl
    simp [strContainsSub, he, subList_nil]

theorem search_by_keyword_spec_witness :
    demoTasks.get ⟨0, by decide⟩ ∈ demoManager.search_by_keyword "PROJECT" :=
  ((search_by_keyword_spec demoManager "PROJECT").2.1 _).mpr
    ⟨by decide, Or.inl (by decide)⟩

/-- C10: constructing a Task directly never fails: for every title,
description and priority the constructor stores the lowercased priority
without any validation and starts the task not completed; in
particular a standalone Task can carry a priority outside high, medium,
low, which add_task on a store would have rejected. -/
theorem task_init_unchecked :
    (∀ (addr ca : Nat) (ti d p : String),
      (Task.init addr ca ti d p).priority = strToLower p ∧
      (Task.init addr ca ti d p).completed = false) ∧
    (Task.init 3 0 "t" "d" "Urgent").priority = "urgent" ∧
    "urgent" ∉ validPriorities ∧
    TaskManager.empty.add_task 3 0 "t" "d" "Urgent" =
      Except.error "Priority must be high, medium, or low" :=
  ⟨fun _ _ _ _ _ => ⟨rfl, rfl⟩, by decide, by decide, by decide⟩

/-- C1: the id of a task is the runtime address `id(self)`, and CPython
may hand the address of a collected object to a later allocation. The
embedding therefore admits a run — add a task at some address, delete
it, add another task at the same now-free address — in which the new
task's id equals the id of a previously-live task of the same store,
refuting lifetime uniqueness of ids. (Ids of simultaneously held tasks
are distinct, since live objects have distinct addresses.) -/
theorem id_reuse_after_delete :
    ∃ (tA : Task) (mA mB : TaskManager) (tB : Task) (mC : TaskManager),
      TaskManager.empty.add_task 1000 0 "first" "one" "high" = Except.ok (tA, mA) ∧
      mA.delete_task tA.id = (true, mB) ∧
      mB.add_task 1000 1 "second" "two" "low" = Except.ok (tB, mC) ∧
      tB.id = tA.id ∧ tB.title ≠ tA.title := by
  refine ⟨Task.init 1000 0 "first" "one" "high",
    ⟨[Task.init 1000 0 "first" "one" "high"]⟩, ⟨[]⟩,
    Task.init 1000 1 "second" "two" "low",
    ⟨[Task.init 1000 1 "second" "two" "low"]⟩,
    by decide, by decide, by decide, by decide, by decide⟩

end TaskManagerPy
